import Mathlib

/-!
Verification of the member-publication synchronization script
(`sync_member_posts.py`).

The script mirrors publication directories from members' GitHub Pages
repositories into a local `publications/` tree.  This file gives a shallow
embedding of its data model and logic:

* YAML values are modelled by the inductive type `Yaml`; the external
  library calls `yaml.safe_load` and `yaml.dump` are modelled by an explicit
  function parameter (`yload`) and a deterministic serializer (`yamlDump`).
* Network access (`requests` via `_safe_request`) is modelled by an explicit
  function parameter `http : String → Option HttpResponse`, where `none`
  models a raised `requests.RequestException`.
* The filesystem is modelled as an association list from paths (lists of
  components) to file contents; a write prepends, and `List.lookup` reads
  the most recent entry.
* The current wall-clock time read by `datetime.now()` is modelled by an
  explicit `now : String` parameter (the formatted timestamp).
* Python exception paths (e.g. `AttributeError` from calling `.get` on a
  non-dict, `TypeError`/`AttributeError` from `in`/`append` on unsuitable
  values) are modelled by `Option`, with `none` for a raised exception,
  matching the `try`/`except` structure of the source.
-/

/-- YAML values as stored in parsed frontmatter.  Mappings are association
lists with string keys (the script only ever accesses string keys). -/
inductive Yaml where
  | str (s : String)
  | int (n : Int)
  | bool (b : Bool)
  | null
  | list (l : List Yaml)
  | map (m : List (String × Yaml))
deriving Repr

mutual

def Yaml.decEq : (a b : Yaml) → Decidable (a = b)
  | .str a, .str b =>
    if h : a = b then isTrue (by rw [h]) else isFalse (by intro hh; cases hh; exact h rfl)
  | .int a, .int b =>
    if h : a = b then isTrue (by rw [h]) else isFalse (by intro hh; cases hh; exact h rfl)
  | .bool a, .bool b =>
    if h : a = b then isTrue (by rw [h]) else isFalse (by intro hh; cases hh; exact h rfl)
  | .null, .null => isTrue rfl
  | .list a, .list b =>
    match Yaml.decEqList a b with
    | isTrue h => isTrue (by rw [h])
    | isFalse h => isFalse (by intro hh; cases hh; exact h rfl)
  | .map a, .map b =>
    match Yaml.decEqMap a b with
    | isTrue h => isTrue (by rw [h])
    | isFalse h => isFalse (by intro hh; cases hh; exact h rfl)
  | .str _, .int _ => isFalse (by intro h; cases h)
  | .str _, .bool _ => isFalse (by intro h; cases h)
  | .str _, .null => isFalse (by intro h; cases h)
  | .str _, .list _ => isFalse (by intro h; cases h)
  | .str _, .map _ => isFalse (by intro h; cases h)
  | .int _, .str _ => isFalse (by intro h; cases h)
  | .int _, .bool _ => isFalse (by intro h; cases h)
  | .int _, .null => isFalse (by intro h; cases h)
  | .int _, .list _ => isFalse (by intro h; cases h)
  | .int _, .map _ => isFalse (by intro h; cases h)
  | .bool _, .str _ => isFalse (by intro h; cases h)
  | .bool _, .int _ => isFalse (by intro h; cases h)
  | .bool _, .null => isFalse (by intro h; cases h)
  | .bool _, .list _ => isFalse (by intro h; cases h)
  | .bool _, .map _ => isFalse (by intro h; cases h)
  | .null, .str _ => isFalse (by intro h; cases h)
  | .null, .int _ => isFalse (by intro h; cases h)
  | .null, .bool _ => isFalse (by intro h; cases h)
  | .null, .list _ => isFalse (by intro h; cases h)
  | .null, .map _ => isFalse (by intro h; cases h)
  | .list _, .str _ => isFalse (by intro h; cases h)
  | .list _, .int _ => isFalse (by intro h; cases h)
  | .list _, .bool _ => isFalse (by intro h; cases h)
  | .list _, .null => isFalse (by intro h; cases h)
  | .list _, .map _ => isFalse (by intro h; cases h)
  | .map _, .str _ => isFalse (by intro h; cases h)
  | .map _, .int _ => isFalse (by intro h; cases h)
  | .map _, .bool _ => isFalse (by intro h; cases h)
  | .map _, .null => isFalse (by intro h; cases h)
  | .map _, .list _ => isFalse (by intro h; cases h)
termination_by structural a => a

def Yaml.decEqList : (a b : List Yaml) → Decidable (a = b)
  | [], [] => isTrue rfl
  | [], _ :: _ => isFalse (by intro h; cases h)
  | _ :: _, [] => isFalse (by intro h; cases h)
  | x :: xs, y :: ys =>
    match Yaml.decEq x y, Yaml.decEqList xs ys with
    | isTrue h1, isTrue h2 => isTrue (by rw [h1, h2])
    | isFalse h1, _ => isFalse (by intro hh; cases hh; exact h1 rfl)
    | _, isFalse h2 => isFalse (by intro hh; cases hh; exact h2 rfl)
termination_by structural a => a

def Yaml.decEqMap : (a b : List (String × Yaml)) → Decidable (a = b)
  | [], [] => isTrue rfl
  | [], _ :: _ => isFalse (by intro h; cases h)
  | _ :: _, [] => isFalse (by intro h; cases h)
  | (k, x) :: xs, (l, y) :: ys =>
    match Yaml.decEq x y, Yaml.decEqMap xs ys with
    | isTrue h1, isTrue h2 =>
      if hk : k = l then isTrue (by rw [hk, h1, h2])
      else isFalse (by intro hh; cases hh; exact hk rfl)
    | isFalse h1, _ => isFalse (by intro hh; cases hh; exact h1 rfl)
    | _, isFalse h2 => isFalse (by intro hh; cases hh; exact h2 rfl)
termination_by structural a => a

end

instance : DecidableEq Yaml := Yaml.decEq

/-- Whitespace characters stripped by Python `str.strip()` (ASCII range). -/
def pyWs (c : Char) : Bool :=
  c = ' ' || c = '\t' || c = '\n' || c = '\x0d' || c = '\x0b' || c = '\x0c'

/-- Python `s.strip()`: remove leading and trailing whitespace. -/
def pyStrip (s : String) : String :=
  ⟨((s.toList.dropWhile pyWs).reverse.dropWhile pyWs).reverse⟩

/-- Python `s.strip('/')`: remove leading and trailing slashes. -/
def pyStripSlashes (s : String) : String :=
  ⟨((s.toList.dropWhile (· = '/')).reverse.dropWhile (· = '/')).reverse⟩

/-- Python `s.lower()` (ASCII behaviour), built over the character list so
that it reduces in the kernel. -/
def pyLower (s : String) : String :=
  ⟨s.toList.map Char.toLower⟩

/-- Python `s.startswith(pre)`. -/
def pyStartsWith (s pre : String) : Bool :=
  pre.toList.isPrefixOf s.toList

/-- Helper for `pySplitOn`: fuel-indexed splitting on the first list, the
accumulator holding the current piece reversed.  The fuel (initially the
input length, enough for a nonempty separator) makes the recursion
structural so the function reduces in the kernel. -/
def splitOnListAux (sep : List Char) : Nat → List Char → List Char → List (List Char)
  | _, [], acc => [acc.reverse]
  | 0, rest, acc => [acc.reverse ++ rest]
  | fuel + 1, c :: cs, acc =>
    if sep.isPrefixOf (c :: cs) then
      acc.reverse :: splitOnListAux sep fuel (List.drop (sep.length - 1) cs) []
    else
      splitOnListAux sep fuel cs (c :: acc)

/-- Python `s.split(sep)` for a nonempty separator: split at every
leftmost non-overlapping occurrence. -/
def pySplitOn (s sep : String) : List String :=
  (splitOnListAux sep.toList s.toList.length s.toList []).map (fun l => ⟨l⟩)

/-- Python `s.replace(pattern, repl)`: replace every non-overlapping
occurrence, left to right. -/
def pyReplace (s pattern repl : String) : String :=
  String.intercalate repl (pySplitOn s pattern)

/-- Helper for `pyTitle`: the Boolean argument records whether the previous
character was alphabetic. -/
def pyTitleAux : List Char → Bool → List Char
  | [], _ => []
  | c :: cs, prevAlpha =>
    if c.isAlpha then
      (if prevAlpha then c.toLower else c.toUpper) :: pyTitleAux cs true
    else
      c :: pyTitleAux cs false

/-- Python `s.title()`: first letter of each alphabetic run uppercased, the
rest lowercased (ASCII behaviour). -/
def pyTitle (s : String) : String :=
  ⟨pyTitleAux s.toList false⟩

/-- Python `s.split(sep, 2)`: split on the first two occurrences of `sep`,
keeping the remainder (with any further separators) as the last part. -/
def pySplit2 (sep s : String) : List String :=
  match pySplitOn s sep with
  | a :: b :: c :: rest => [a, b, String.intercalate sep (c :: rest)]
  | other => other

/-- Python `sub in s` substring test. -/
def pySubstr (sub s : String) : Bool :=
  sub = "" || (pySplitOn s sub).length > 1

/-- Python `str(v)` on a YAML value (scalars as Python prints them;
containers rendered with a fixed deterministic spelling). -/
def pyStr : Yaml → String
  | .str s => s
  | .int n => toString n
  | .bool b => if b then "True" else "False"
  | .null => "None"
  | .list _ => "<list>"
  | .map _ => "<dict>"

/-- First-match association-list lookup on a parsed YAML mapping
(Python `dict.get(key)`; the script never creates duplicate keys). -/
def lookupFm (key : String) : List (String × Yaml) → Option Yaml
  | [] => none
  | (k, v) :: rest => if k = key then some v else lookupFm key rest

/-- First-match association-list lookup on a string-to-string mapping. -/
def lookupAssoc (key : String) : List (String × String) → Option String
  | [] => none
  | (k, v) :: rest => if k = key then some v else lookupAssoc key rest

/-- Member record from `members.yml` (see `_load_config` and the accesses
in `sync_member_posts.py`): `username`, `name` and `profile_url` are always
read by direct indexing; `publications_path`, `destination_path` and
`active` are read with `.get` and so are optional. -/
structure Member where
  username : String
  name : String
  profile_url : String
  publications_path : Option String
  destination_path : Option String
  active : Option Bool
deriving DecidableEq, Repr

/-- The `sync_config` block of the configuration.  Every field is read via
`.get` with a default, so each is optional; `category_mapping` defaults to
an empty mapping, which an empty list models directly. -/
structure SyncConfig where
  max_posts_per_member : Option Nat
  add_attribution : Option Bool
  category_mapping : List (String × String)
  type_mapping : Option (List (String × String))
deriving DecidableEq, Repr

/-- Whole loaded configuration: `members` plus `sync_config`. -/
structure Config where
  members : List Member
  sync_config : SyncConfig
deriving DecidableEq, Repr

/-- Image-file reference attached to a publication (name, download URL and
remote path), as built in `_get_posts_via_raw_github` (lines 139 to 143) and
`_process_publication_directory` (lines 244 to 250). -/
structure ImageInfo where
  name : String
  download_url : String
  github_path : String
deriving DecidableEq, Repr

/-- The publication dictionary flowing through the script.  The first six
fields are set by `_parse_qmd_content`; the remaining four are added by the
fetch layer, hence optional (the renderer reads them back with `.get`).
`title`, `author` and `categories` hold raw YAML values exactly as parsed. -/
structure PublicationData where
  title : Yaml
  author : Yaml
  categories : Yaml
  content : String
  filename : String
  original_frontmatter : List (String × Yaml)
  directory_name : Option String
  source_url : Option String
  github_path : Option String
  image_files : List ImageInfo
deriving DecidableEq, Repr

/-- Result of `_create_local_post` (line 401): the target path of the
primary file, its full rendered text, and the (local path, download URL)
pairs for image assets.  Paths are lists of components. -/
structure RenderedOutput where
  indexPath : List String
  fullContent : String
  imageDownloads : List (List String × String)
deriving DecidableEq, Repr

/-- HTTP response as seen through `_safe_request`: status code and body. -/
structure HttpResponse where
  status : Nat
  text : String
deriving DecidableEq, Repr

/-- Network access as seen through `_safe_request` (lines 162 to 169):
`none` models a raised and caught `requests.RequestException`. -/
abbrev Http := String → Option HttpResponse

/-- Model of `yaml.safe_load`: `Except.error ()` models a raised
`yaml.YAMLError`; `Except.ok none` models a successful parse whose result is
not a mapping (e.g. `None` for empty input, or a plain scalar) — calling
`.get` on such a value raises `AttributeError`, which `_parse_qmd_content`
catches; `Except.ok (some m)` is a parsed mapping with string keys. -/
abbrev YamlLoader := String → Except Unit (Option (List (String × Yaml)))

/-- Abstraction of `_parse_posts_from_github_api` (lines 171 to 215), the
branch taken only when the primary listing request returns status 200.  The
claims settled here exercise only the non-200 paths, so this branch is kept
as an opaque parameter from the listing body to publications. -/
abbrev ApiParser := String → List PublicationData

/-- The publication record `_parse_qmd_content` returns when the document
has no (complete) frontmatter block (lines 283 to 291): derived title,
author as a singleton list of the member name, the single default category
`research`, and the entire text as body. -/
def fallbackPublication (content filename : String) (member : Member) : PublicationData :=
  { title := .str (pyTitle (pyReplace (pyReplace filename ".qmd" "") "-" " "))
    author := .list [.str member.name]
    categories := .list [.str "research"]
    content := content
    filename := filename
    original_frontmatter := []
    directory_name := none
    source_url := none
    github_path := none
    image_files := [] }

/-- Embedding of `_parse_qmd_content` (lines 258 to 295).  The `try` block
catches every exception and returns `None`, modelled by `Option`.  Note the
frontmatter-branch default title (line 275) does not replace dashes, unlike
the no-frontmatter branch (line 285). -/
def parseQmdContent (yload : YamlLoader) (content filename : String) (member : Member) :
    Option PublicationData :=
  if pyStartsWith content "---" then
    match pySplit2 "---" content with
    | _ :: yamlPart :: markdownPart :: _ =>
      match yload (pyStrip yamlPart) with
      | .error _ => none
      | .ok none => none
      | .ok (some frontmatter) =>
        some { title := (lookupFm "title" frontmatter).getD
                 (.str (pyTitle (pyReplace filename ".qmd" "")))
               author := (lookupFm "author" frontmatter).getD (.str member.name)
               categories := (lookupFm "categories" frontmatter).getD (.list [])
               content := pyStrip markdownPart
               filename := filename
               original_frontmatter := frontmatter
               directory_name := none
               source_url := none
               github_path := none
               image_files := [] }
    | _ => some (fallbackPublication content filename member)
  else some (fallbackPublication content filename member)

/-- Default `type_mapping` used when the configuration has none
(lines 314 to 320). -/
def defaultTypeMapping : List (String × String) :=
  [("paper", "papers"), ("publication", "papers"), ("report", "reports"),
   ("post", "posts"), ("blog", "posts")]

/-- Python iteration over a YAML value: lists yield their items, strings
their characters, dicts their keys; scalars are not iterable (TypeError). -/
def yamlIterate : Yaml → Option (List Yaml)
  | .list l => some l
  | .str s => some (s.toList.map (fun c => .str (String.singleton c)))
  | .map m => some (m.map (fun kv => .str kv.1))
  | _ => none

/-- Embedding of `_get_destination_subdir` (lines 297 to 326): member-level
`destination_path` override (slash-stripped) first; then the first category
with an entry in `category_mapping` (value slash-stripped); then the
`type_mapping` entry for the frontmatter `type` (default `post`), used
verbatim; finally the constant `posts`.  Note: this function is defined in
the script but never called by it. -/
def getDestinationSubdir (post : PublicationData) (member : Member) (cfg : SyncConfig) :
    Option String :=
  match member.destination_path with
  | some p => some (pyStripSlashes p)
  | none =>
    match yamlIterate post.categories with
    | none => none
    | some cats =>
      match cats.findSome? (fun c =>
          match c with
          | .str s => (lookupAssoc s cfg.category_mapping).map pyStripSlashes
          | _ => none) with
      | some sub => some sub
      | none =>
        let postType := (lookupFm "type" post.original_frontmatter).getD (.str "post")
        let typeMapping := cfg.type_mapping.getD defaultTypeMapping
        match postType with
        | .str t =>
          match lookupAssoc t typeMapping with
          | some v => some v
          | none => some "posts"
        | _ => some "posts"

/-- Python `x in container` on YAML values: list membership by equality,
substring test on strings, key membership on dicts; scalars are not
containers (TypeError, modelled as `none`). -/
def pyIn (x container : Yaml) : Option Bool :=
  match container with
  | .list l => some (l.contains x)
  | .str s =>
    match x with
    | .str sub => some (pySubstr sub s)
    | _ => none
  | .map m =>
    match x with
    | .str k => some (m.any (fun kv => kv.1 == k))
    | .list _ => none
    | .map _ => none
    | _ => some false
  | _ => none

/-- Python `container.append(x)`: only lists have `append`
(AttributeError otherwise, modelled as `none`). -/
def pyAppend (container x : Yaml) : Option Yaml :=
  match container with
  | .list l => some (.list (l ++ [x]))
  | _ => none

/-- The marker category injected into every rendered document (line 357). -/
def markerCategory : Yaml := .str "member-publication"

/-- The wrapping at line 376: a list is used as is, any other value becomes
a one-element list. -/
def yamlWrapList : Yaml → List Yaml
  | .list l => l
  | v => [v]

/-- The category-merging loop of `_create_local_post` (lines 377 to 379):
append each original category not already present. -/
def mergeOrigCats : Yaml → List Yaml → Option Yaml
  | acc, [] => some acc
  | acc, c :: rest =>
    match pyIn c acc with
    | none => none
    | some true => mergeOrigCats acc rest
    | some false =>
      match pyAppend acc c with
      | none => none
      | some acc2 => mergeOrigCats acc2 rest

/-- The categories computation of `_create_local_post`: start from the
publication categories (line 353), append the marker category if absent
(lines 357 to 358), then merge the original frontmatter categories
(lines 374 to 379). -/
def buildCategories (pubCats : Yaml) (origFm : List (String × Yaml)) : Option Yaml :=
  match pyIn markerCategory pubCats with
  | none => none
  | some b =>
    match (if b then some pubCats else pyAppend pubCats markerCategory) with
    | none => none
    | some c1 =>
      match lookupFm "categories" origFm with
      | none => some c1
      | some oc => mergeOrigCats c1 (yamlWrapList oc)

/-- Author normalization of `_create_local_post` (lines 343 to 348):
a string is wrapped in a singleton list, a list is kept as is, anything
else becomes a singleton list of its `str()` form. -/
def normalizeAuthor : Yaml → List Yaml
  | .str s => [.str s]
  | .list l => l
  | v => [.str (pyStr v)]

/-- The frontmatter dictionary assembled by `_create_local_post`
(lines 350 to 379): required fields, the `source` block, then passthrough
of original keys that are not already present and are not `categories`. -/
def buildFrontmatter (directoryName : String) (pub : PublicationData) (member : Member) :
    Option (List (String × Yaml)) :=
  match buildCategories pub.categories pub.original_frontmatter with
  | none => none
  | some cats =>
    let base : List (String × Yaml) :=
      [("title", pub.title),
       ("author", .list (normalizeAuthor pub.author)),
       ("categories", cats),
       ("source", .map
         [("member", .str member.name),
          ("username", .str member.username),
          ("original_url", .str (pub.source_url.getD member.profile_url)),
          ("github_path", .str (pub.github_path.getD "")),
          ("directory", .str directoryName)])]
    some (pub.original_frontmatter.foldl
      (fun acc kv =>
        if acc.any (fun e => e.1 == kv.1) || kv.1 == "categories" then acc else acc ++ [kv])
      base)

mutual

def yamlDumpVal : Yaml → String
  | .str s => s
  | .int n => toString n
  | .bool b => if b then "true" else "false"
  | .null => "null"
  | .list l => "[" ++ yamlDumpList l ++ "]"
  | .map m => "(" ++ yamlDumpPairs m ++ ")"
termination_by structural a => a

def yamlDumpList : List Yaml → String
  | [] => ""
  | [x] => yamlDumpVal x
  | x :: rest => yamlDumpVal x ++ ", " ++ yamlDumpList rest
termination_by structural a => a

def yamlDumpPairs : List (String × Yaml) → String
  | [] => ""
  | [(k, v)] => k ++ ": " ++ yamlDumpVal v
  | (k, v) :: rest => k ++ ": " ++ yamlDumpVal v ++ ", " ++ yamlDumpPairs rest
termination_by structural a => a

end

/-- Deterministic stand-in for `yaml.dump(frontmatter)` at line 391: one
line per key.  The exact textual format is irrelevant to every claim; what
matters is that it is a function of the dictionary alone. -/
def yamlDump (m : List (String × Yaml)) : String :=
  String.join (m.map (fun kv => kv.1 ++ ": " ++ yamlDumpVal kv.2 ++ "\n"))

/-- The attribution trailer appended at lines 386 to 388. -/
def attributionText (member : Member) : String :=
  "\n\n---\n\n*This publication was originally published by [" ++ member.name ++
  "](" ++ member.profile_url ++ ") and automatically synced to the McPherson Lab website.*"

/-- `self.base_publications_dir = Path("publications")` (line 44). -/
def basePublicationsDir : List String := ["publications"]

/-- Embedding of `_create_local_post` (lines 328 to 401).  `now` stands for
the `datetime.now()` timestamp consulted only when the publication has no
`directory_name` (line 330).  `none` models a raised exception (from the
categories handling), caught by the caller at lines 514 to 516. -/
def createLocalPost (now : String) (pub : PublicationData) (member : Member) (cfg : SyncConfig) :
    Option RenderedOutput :=
  let directoryName := pub.directory_name.getD ("publication-" ++ now)
  let localDirName := pyLower member.username ++ "-" ++ directoryName
  let destinationDir := basePublicationsDir ++ [localDirName]
  let indexPath := destinationDir ++ ["index.qmd"]
  match buildFrontmatter directoryName pub member with
  | none => none
  | some frontmatter =>
    let contents := pub.content ++
      (if cfg.add_attribution.getD true then attributionText member else "")
    let fullContent := "---\n" ++ yamlDump frontmatter ++ "---\n\n" ++ contents
    let imageDownloads :=
      pub.image_files.map (fun img => (destinationDir ++ [img.name], img.download_url))
    some ⟨indexPath, fullContent, imageDownloads⟩

/-- The hardcoded fallback directory list (line 110). -/
def knownDirectories : List String := ["20250917_test"]

/-- The allowed image extensions probed in order (line 131). -/
def imageExtensions : List String := ["jpg", "jpeg", "png", "gif", "svg"]

/-- The GitHub API listing URL built at line 71. -/
def memberApiUrl (username repoName pubPath : String) : String :=
  "https://api.github.com/repos/" ++ username ++ "/" ++ repoName ++ "/contents/" ++ pubPath

/-- Raw-content URLs built at lines 115 and 134. -/
def rawGithubUrl (username repoName pubPath dirName fileName : String) : String :=
  "https://raw.githubusercontent.com/" ++ username ++ "/" ++ repoName ++ "/main/" ++
    pubPath ++ "/" ++ dirName ++ "/" ++ fileName

/-- The featured-image probe loop of `_get_posts_via_raw_github`
(lines 130 to 146): try each extension in order, keep the first that
resolves with status 200, and stop (`break`). -/
def probeFeatured (http : Http) (username repoName pubPath dirName : String) :
    List String → List ImageInfo
  | [] => []
  | e :: rest =>
    let imgFilename := "featured." ++ e
    let imgUrl := rawGithubUrl username repoName pubPath dirName imgFilename
    match http imgUrl with
    | some r =>
      if r.status = 200 then
        [⟨imgFilename, imgUrl, pubPath ++ "/" ++ dirName ++ "/" ++ imgFilename⟩]
      else probeFeatured http username repoName pubPath dirName rest
    | none => probeFeatured http username repoName pubPath dirName rest

/-- One iteration of the known-directory loop of `_get_posts_via_raw_github`
(lines 112 to 155): fetch `index.qmd` directly; on status 200 parse it and
attach provenance and the probed featured image. -/
def fetchKnownDir (http : Http) (yload : YamlLoader) (username repoName pubPath : String)
    (member : Member) (dirName : String) : Option PublicationData :=
  let indexUrl := rawGithubUrl username repoName pubPath dirName "index.qmd"
  match http indexUrl with
  | some r =>
    if r.status = 200 then
      match parseQmdContent yload r.text "index.qmd" member with
      | some pd =>
        some { pd with
          directory_name := some dirName
          source_url := some ("https://github.com/" ++ username ++ "/" ++ repoName ++
            "/blob/main/" ++ pubPath ++ "/" ++ dirName ++ "/index.qmd")
          github_path := some (pubPath ++ "/" ++ dirName ++ "/index.qmd")
          image_files := probeFeatured http username repoName pubPath dirName imageExtensions }
      | none => none
    else none
  | none => none

/-- Embedding of `_get_posts_via_raw_github` (lines 101 to 160). -/
def getPostsViaRawGithub (http : Http) (yload : YamlLoader) (username pubPath : String)
    (member : Member) : List PublicationData :=
  let repoName := username ++ ".github.io"
  knownDirectories.filterMap (fetchKnownDir http yload username repoName pubPath member)

/-- Embedding of `_get_posts_from_member_site` (lines 60 to 99): primary
GitHub API listing, with the raw-content fallback on status 403 or on a
failed request, and an empty result on any other non-200 status. -/
def getPostsFromMemberSite (http : Http) (yload : YamlLoader) (apiParse : ApiParser)
    (member : Member) : List PublicationData :=
  let username := member.username
  let pubPath := pyStripSlashes (member.publications_path.getD "/publications")
  let repoName := username ++ ".github.io"
  match http (memberApiUrl username repoName pubPath) with
  | some r =>
    if r.status = 200 then apiParse r.text
    else if r.status = 403 then getPostsViaRawGithub http yload username pubPath member
    else []
  | none => getPostsViaRawGithub http yload username pubPath member

/-- Local filesystem state: association list from paths to file contents.
A write prepends; `List.lookup` reads the most recent entry. -/
abbrev FS := List (List String × String)

/-- Writing a file (`open(path, 'w')` semantics for lookups). -/
def fsWrite (fs : FS) (path : List String) (contents : String) : FS :=
  (path, contents) :: fs

/-- The log lines relevant to the reconciliation decision, as emitted by
`_sync_member_posts` (lines 478 to 481 for dry-run, 492, 496 and 499 for a
real run). -/
inductive LogEntry where
  | wouldCreateOrUpdateDir (dir : List String)
  | wouldCreateIndex (path : List String)
  | wouldDownloadImage (path : List String)
  | creating (dir : List String)
  | updating (dir : List String)
  | noChanges (path : List String)
deriving DecidableEq, Repr

/-- The image-download loop of `_sync_member_posts` (lines 509 to 512),
using `_download_image_file` (lines 403 to 422): a 200 response is written
to the local path, anything else is logged and skipped. -/
def downloadImages (http : Http) (fs : FS) : List (List String × String) → FS
  | [] => fs
  | (p, u) :: rest =>
    match http u with
    | some r =>
      if r.status = 200 then downloadImages http (fsWrite fs p r.text) rest
      else downloadImages http fs rest
    | none => downloadImages http fs rest

/-- The per-publication body of `_sync_member_posts` (lines 477 to 512):
in dry-run mode, log only; otherwise decide CREATE / UPDATE / SKIP from the
existing file and the rendered text (compared after stripping), write the
primary file for CREATE and UPDATE, then download images. -/
def processPublication (http : Http) (dryRun : Bool) (fs : FS) (indexPath : List String)
    (contents : String) (imageDownloads : List (List String × String)) : FS × List LogEntry :=
  if dryRun then
    (fs, [.wouldCreateOrUpdateDir indexPath.dropLast, .wouldCreateIndex indexPath] ++
      imageDownloads.map (fun q => .wouldDownloadImage q.1))
  else
    match fs.lookup indexPath with
    | some existing =>
      if pyStrip existing = pyStrip contents then
        (fs, [.noChanges indexPath])
      else
        (downloadImages http (fsWrite fs indexPath contents) imageDownloads,
         [.updating indexPath.dropLast])
    | none =>
      (downloadImages http (fsWrite fs indexPath contents) imageDownloads,
       [.creating indexPath.dropLast])

/-- The publication loop of `_sync_member_posts` (lines 473 to 516): each
publication is rendered and processed; an exception from rendering
(`createLocalPost` returning `none`) is caught and the loop continues. -/
def syncPublications (http : Http) (now : String) (dryRun : Bool) (member : Member)
    (scfg : SyncConfig) : FS → List PublicationData → FS × List LogEntry
  | fs, [] => (fs, [])
  | fs, pub :: rest =>
    match createLocalPost now pub member scfg with
    | none => syncPublications http now dryRun member scfg fs rest
    | some out =>
      let r := processPublication http dryRun fs out.indexPath out.fullContent out.imageDownloads
      let r2 := syncPublications http now dryRun member scfg r.1 rest
      (r2.1, r.2 ++ r2.2)

/-- Embedding of `_sync_member_posts` (lines 450 to 519): fetch, truncate to
`max_posts_per_member` (default 50), then process each publication. -/
def syncMemberPostsSingle (http : Http) (yload : YamlLoader) (apiParse : ApiParser)
    (now : String) (dryRun : Bool) (cfg : Config) (fs : FS) (member : Member) :
    FS × List LogEntry :=
  let publications := getPostsFromMemberSite http yload apiParse member
  if publications.isEmpty then (fs, [])
  else
    let maxPosts := cfg.sync_config.max_posts_per_member.getD 50
    syncPublications http now dryRun member cfg.sync_config fs (publications.take maxPosts)

/-- The active-member filter of `sync_member_posts` (line 435): a missing
`active` flag defaults to true. -/
def activeMembers (members : List Member) : List Member :=
  members.filter (fun m => m.active.getD true)

/-- The single-member filter of `sync_member_posts` (lines 428 to 432). -/
def selectMembers (members : List Member) (memberFilter : Option String) : List Member :=
  match memberFilter with
  | some u => members.filter (fun m => m.username == u)
  | none => members

/-- The member loop of `sync_member_posts` (lines 443 to 448). -/
def syncMembersLoop (http : Http) (yload : YamlLoader) (apiParse : ApiParser) (now : String)
    (dryRun : Bool) (cfg : Config) : FS → List Member → FS × List LogEntry
  | fs, [] => (fs, [])
  | fs, m :: rest =>
    let r := syncMemberPostsSingle http yload apiParse now dryRun cfg fs m
    let r2 := syncMembersLoop http yload apiParse now dryRun cfg r.1 rest
    (r2.1, r.2 ++ r2.2)

/-- Embedding of `sync_member_posts` (lines 424 to 448): apply the
single-member filter (returning early if it matches nobody), keep only
active members, and sync each in order. -/
def syncMemberPostsAll (http : Http) (yload : YamlLoader) (apiParse : ApiParser) (now : String)
    (dryRun : Bool) (cfg : Config) (memberFilter : Option String) (fs : FS) :
    FS × List LogEntry :=
  let selected := selectMembers cfg.members memberFilter
  if memberFilter.isSome && selected.isEmpty then (fs, [])
  else syncMembersLoop http yload apiParse now dryRun cfg fs (activeMembers selected)

/-! Concrete fixtures used by witnesses and counterexamples. -/

/-- Test member corresponding to spec scenario 2 (no overrides). -/
def memberAlice : Member :=
  { username := "Alice"
    name := "Alice McPherson"
    profile_url := "https://github.com/Alice"
    publications_path := none
    destination_path := none
    active := none }

/-- Configuration mapping category `paper` to subdirectory `papers`
(spec scenario 2), with attribution disabled to keep fixtures small. -/
def cfgPapers : SyncConfig :=
  { max_posts_per_member := none
    add_attribution := some false
    category_mapping := [("paper", "papers")]
    type_mapping := none }

/-- A qualifying remote publication from directory `2025_paper` with
categories `[paper]` (spec scenario 2). -/
def pubPaper : PublicationData :=
  { title := .str "Paper X"
    author := .str "Alice McPherson"
    categories := .list [.str "paper"]
    content := "Body text"
    filename := "index.qmd"
    original_frontmatter := [("title", .str "Paper X"), ("categories", .list [.str "paper"])]
    directory_name := some "2025_paper"
    source_url := none
    github_path := none
    image_files := [] }

/-- Like `pubPaper` but with an empty author list, as produced by a source
document whose frontmatter says `author: []`. -/
def pubEmptyAuthor : PublicationData :=
  { pubPaper with author := .list [] }

/-- Like `pubPaper` but with no directory name, as produced directly by
`_parse_qmd_content` (which never sets `directory_name`). -/
def pubNoDir : PublicationData :=
  { pubPaper with directory_name := none }

/-- A publication whose categories value makes `_create_local_post` raise
(`in`/`append` on an integer raises TypeError/AttributeError). -/
def pubBadCats : PublicationData :=
  { pubPaper with categories := .int 0 }

/-! Generic helper lemmas. -/

theorem yaml_contains_iff (l : List Yaml) (a : Yaml) : l.contains a = true ↔ a ∈ l := by
  simp [List.contains]

theorem lookupFm_append_left (key : String) (v : Yaml) :
    ∀ l1 l2 : List (String × Yaml), lookupFm key l1 = some v → lookupFm key (l1 ++ l2) = some v := by
  intro l1 l2 h
  induction l1 with
  | nil => cases h
  | cons x xs ih =>
    obtain ⟨k2, v2⟩ := x
    by_cases hk : k2 = key
    · simp only [lookupFm, List.cons_append, if_pos hk] at h ⊢
      exact h
    · simp only [lookupFm, List.cons_append, if_neg hk] at h ⊢
      exact ih h

theorem foldl_passthrough_prefix :
    ∀ (orig base : List (String × Yaml)),
      ∃ ext, orig.foldl
        (fun acc kv =>
          if acc.any (fun e => e.1 == kv.1) || kv.1 == "categories" then acc else acc ++ [kv])
        base = base ++ ext := by
  intro orig
  induction orig with
  | nil => exact fun base => ⟨[], by simp⟩
  | cons kv rest ih =>
    intro base
    simp only [List.foldl_cons]
    by_cases hc : (base.any (fun e => e.1 == kv.1) || kv.1 == "categories") = true
    · rw [if_pos hc]
      exact ih base
    · rw [if_neg hc]
      obtain ⟨ext, hext⟩ := ih (base ++ [kv])
      exact ⟨[kv] ++ ext, by rw [hext, List.append_assoc]⟩

theorem buildFrontmatter_fields (dirName : String) (pub : PublicationData) (m : Member)
    (fm : List (String × Yaml)) (h : buildFrontmatter dirName pub m = some fm) :
    lookupFm "author" fm = some (.list (normalizeAuthor pub.author)) ∧
    ∀ c, buildCategories pub.categories pub.original_frontmatter = some c →
      lookupFm "categories" fm = some c := by
  unfold buildFrontmatter at h
  cases hbc : buildCategories pub.categories pub.original_frontmatter with
  | none => rw [hbc] at h; cases h
  | some cats =>
    rw [hbc] at h
    simp only [Option.some.injEq] at h
    obtain ⟨ext, hext⟩ := foldl_passthrough_prefix pub.original_frontmatter
      [("title", pub.title),
       ("author", .list (normalizeAuthor pub.author)),
       ("categories", cats),
       ("source", .map
         [("member", .str m.name),
          ("username", .str m.username),
          ("original_url", .str (pub.source_url.getD m.profile_url)),
          ("github_path", .str (pub.github_path.getD "")),
          ("directory", .str dirName)])]
    rw [hext] at h
    subst h
    constructor
    · apply lookupFm_append_left
      simp [lookupFm]
    · intro c hc
      injection hc with he
      subst he
      apply lookupFm_append_left
      simp [lookupFm]

theorem mergeOrigCats_marker :
    ∀ (cats : List Yaml) (l : List Yaml), markerCategory ∈ l →
      ∃ l2, mergeOrigCats (.list l) cats = some (.list l2) ∧ markerCategory ∈ l2 ∧
        l2.count markerCategory = l.count markerCategory := by
  intro cats
  induction cats with
  | nil => exact fun l h => ⟨l, rfl, h, rfl⟩
  | cons c rest ih =>
    intro l h
    by_cases hc : c ∈ l
    · obtain ⟨l2, h1, h2, h3⟩ := ih l h
      exact ⟨l2, by simp [mergeOrigCats, pyIn, hc, h1], h2, h3⟩
    · have hcm : c ≠ markerCategory := fun he => hc (he ▸ h)
      have hmc : markerCategory ≠ c := Ne.symm hcm
      obtain ⟨l2, h1, h2, h3⟩ := ih (l ++ [c]) (List.mem_append_left _ h)
      refine ⟨l2, by simp [mergeOrigCats, pyIn, hc, pyAppend, h1], h2, ?_⟩
      rw [h3, List.count_append]
      simp [List.count_cons, hmc]

theorem buildCategories_marker :
    ∀ (l : List Yaml) (fm : List (String × Yaml)),
      ∃ l2, buildCategories (.list l) fm = some (.list l2) ∧ markerCategory ∈ l2 ∧
        (markerCategory ∈ l → l2.count markerCategory = l.count markerCategory) := by
  intro l fm
  by_cases hm : markerCategory ∈ l
  · cases hfm : lookupFm "categories" fm with
    | none => exact ⟨l, by simp [buildCategories, pyIn, hm, hfm], hm, fun _ => rfl⟩
    | some oc =>
      obtain ⟨l2, h1, h2, h3⟩ := mergeOrigCats_marker (yamlWrapList oc) l hm
      exact ⟨l2, by simp [buildCategories, pyIn, hm, hfm, h1], h2, fun _ => h3⟩
  · have hmem2 : markerCategory ∈ l ++ [markerCategory] :=
      List.mem_append_right _ (List.mem_singleton.mpr rfl)
    cases hfm : lookupFm "categories" fm with
    | none =>
      exact ⟨l ++ [markerCategory], by simp [buildCategories, pyIn, hm, pyAppend, hfm], hmem2,
        fun hmem => absurd hmem hm⟩
    | some oc =>
      obtain ⟨l2, h1, h2, _⟩ := mergeOrigCats_marker (yamlWrapList oc) (l ++ [markerCategory]) hmem2
      exact ⟨l2, by simp [buildCategories, pyIn, hm, pyAppend, hfm, h1], h2,
        fun hmem => absurd hmem hm⟩

theorem lookup_fsWrite_self (fs : FS) (p : List String) (c : String) :
    (fsWrite fs p c).lookup p = some c := by
  simp [fsWrite, List.lookup]

theorem downloadImages_cons (http : Http) (fs : FS) (qp : List String) (qu : String)
    (rest : List (List String × String)) :
    downloadImages http fs ((qp, qu) :: rest) =
      match http qu with
      | some r =>
        if r.status = 200 then downloadImages http (fsWrite fs qp r.text) rest
        else downloadImages http fs rest
      | none => downloadImages http fs rest := rfl

theorem downloadImages_lookup (http : Http) (p : List String) :
    ∀ (imgs : List (List String × String)) (fs : FS), (∀ q ∈ imgs, q.1 ≠ p) →
      (downloadImages http fs imgs).lookup p = fs.lookup p := by
  intro imgs
  induction imgs with
  | nil => exact fun fs _ => rfl
  | cons q rest ih =>
    intro fs hq
    obtain ⟨qp, qu⟩ := q
    have hne : qp ≠ p := hq (qp, qu) (List.mem_cons_self _ _)
    have hrest : ∀ r ∈ rest, r.1 ≠ p := fun r hr => hq r (List.mem_cons_of_mem _ hr)
    have hbne : (p == qp) = false := beq_eq_false_iff_ne.mpr (Ne.symm hne)
    cases hh : http qu with
    | none =>
      rw [downloadImages_cons, hh]
      exact ih fs hrest
    | some r =>
      rw [downloadImages_cons, hh]
      show (if r.status = 200 then downloadImages http (fsWrite fs qp r.text) rest
            else downloadImages http fs rest).lookup p = fs.lookup p
      by_cases hs : r.status = 200
      · rw [if_pos hs, ih _ hrest]
        simp [fsWrite, List.lookup, hbne]
      · rw [if_neg hs]
        exact ih fs hrest

theorem processPublication_dry (http : Http) (fs : FS) (p : List String) (c : String)
    (imgs : List (List String × String)) :
    (processPublication http true fs p c imgs).1 = fs := rfl

theorem syncPublications_dry (http : Http) (now : String) (member : Member) (scfg : SyncConfig) :
    ∀ (pubs : List PublicationData) (fs : FS),
      (syncPublications http now true member scfg fs pubs).1 = fs := by
  intro pubs
  induction pubs with
  | nil => exact fun fs => rfl
  | cons pub rest ih =>
    intro fs
    cases hc : createLocalPost now pub member scfg with
    | none => simp only [syncPublications, hc]; exact ih fs
    | some out =>
      simp only [syncPublications, hc]
      exact ih fs

theorem syncMemberPostsSingle_dry (http : Http) (yload : YamlLoader) (apiParse : ApiParser)
    (now : String) (cfg : Config) (fs : FS) (member : Member) :
    (syncMemberPostsSingle http yload apiParse now true cfg fs member).1 = fs := by
  unfold syncMemberPostsSingle
  by_cases he : (getPostsFromMemberSite http yload apiParse member).isEmpty = true
  · rw [if_pos he]
  · rw [if_neg he]
    exact syncPublications_dry http now member cfg.sync_config _ fs

theorem syncMembersLoop_dry (http : Http) (yload : YamlLoader) (apiParse : ApiParser)
    (now : String) (cfg : Config) :
    ∀ (members : List Member) (fs : FS),
      (syncMembersLoop http yload apiParse now true cfg fs members).1 = fs := by
  intro members
  induction members with
  | nil => exact fun fs => rfl
  | cons m rest ih =>
    intro fs
    simp only [syncMembersLoop]
    rw [ih, syncMemberPostsSingle_dry]

/-- Claim C2: in a non-dry-run sync the per-publication action is a function
only of the existing local primary-file text and the freshly rendered text,
compared after stripping leading and trailing whitespace on both sides: no
existing file at the target path means CREATE (the file is written);
identical stripped texts mean SKIP (nothing is written, the state is
unchanged); any other difference means UPDATE (the file is overwritten in
place). -/
theorem reconciler_decision :
    ∀ (http : Http) (fs : FS) (p : List String) (c : String)
      (imgs : List (List String × String)),
      (∀ q ∈ imgs, q.1 ≠ p) →
      (fs.lookup p = none →
        (processPublication http false fs p c imgs).2 = [.creating p.dropLast] ∧
        (processPublication http false fs p c imgs).1.lookup p = some c) ∧
      (∀ e, fs.lookup p = some e → pyStrip e = pyStrip c →
        processPublication http false fs p c imgs = (fs, [.noChanges p])) ∧
      (∀ e, fs.lookup p = some e → pyStrip e ≠ pyStrip c →
        (processPublication http false fs p c imgs).2 = [.updating p.dropLast] ∧
        (processPublication http false fs p c imgs).1.lookup p = some c) := by
  intro http fs p c imgs himg
  refine ⟨?_, ?_, ?_⟩
  · intro hnone
    constructor
    · simp [processPublication, hnone]
    · rw [show (processPublication http false fs p c imgs).1 =
        downloadImages http (fsWrite fs p c) imgs from by simp [processPublication, hnone]]
      rw [downloadImages_lookup http p imgs _ himg]
      exact lookup_fsWrite_self fs p c
  · intro e he heq
    simp [processPublication, he, heq]
  · intro e he hne
    constructor
    · simp [processPublication, he, hne]
    · rw [show (processPublication http false fs p c imgs).1 =
        downloadImages http (fsWrite fs p c) imgs from by simp [processPublication, he, hne]]
      rw [downloadImages_lookup http p imgs _ himg]
      exact lookup_fsWrite_self fs p c

/-- Witness for `reconciler_decision` at a concrete input: an empty
filesystem yields CREATE and the file is written. -/
theorem reconciler_decision_witness :
    (processPublication (fun _ => none) false [] ["publications", "a", "index.qmd"] "text" []).2 =
      [.creating ["publications", "a"]] ∧
    (processPublication (fun _ => none) false [] ["publications", "a", "index.qmd"]
      "text" []).1.lookup ["publications", "a", "index.qmd"] = some "text" :=
  (reconciler_decision (fun _ => none) [] ["publications", "a", "index.qmd"] "text" []
    (fun q hq => absurd hq (List.not_mem_nil q))).1 rfl

/-- Claim C4 counterexample: dry-run does not compute or log the
CREATE/UPDATE/SKIP decision.  On a state where a real run decides SKIP and
logs only that, the dry run logs a fixed would-create-or-update pair, so the
two decision logs differ (while the dry run indeed leaves the state
unchanged). -/
theorem dry_run_log_counterexample :
    (processPublication (fun _ => none) true [(["p"], "x")] ["p"] "x" []).1 = [(["p"], "x")] ∧
    (processPublication (fun _ => none) false [(["p"], "x")] ["p"] "x" []).2 =
      [.noChanges ["p"]] ∧
    (processPublication (fun _ => none) true [(["p"], "x")] ["p"] "x" []).2 ≠
      (processPublication (fun _ => none) false [(["p"], "x")] ["p"] "x" []).2 := by
  decide

/-- Claim C4 (amended): in dry-run mode no filesystem mutation occurs at any
level of the sync — the final state equals the initial state for the whole
run, over every configuration, member filter and network behaviour.  (The
per-candidate dry-run log is a fixed would-create/update message which does
not reflect the CREATE/UPDATE/SKIP decision; see the counterexample.) -/
theorem dry_run_no_mutation :
    ∀ (http : Http) (yload : YamlLoader) (apiParse : ApiParser) (now : String) (cfg : Config)
      (memberFilter : Option String) (fs : FS),
      (syncMemberPostsAll http yload apiParse now true cfg memberFilter fs).1 = fs := by
  intro http yload apiParse now cfg memberFilter fs
  unfold syncMemberPostsAll
  by_cases hc : (memberFilter.isSome && (selectMembers cfg.members memberFilter).isEmpty) = true
  · rw [if_pos hc]
  · rw [if_neg hc]
    exact syncMembersLoop_dry http yload apiParse now cfg _ fs

/-- Claim C9 (amended): rendering is deterministic for every publication
record that carries its remote directory name (as all fetched publications
do): the result does not depend on the clock value. -/
theorem render_deterministic :
    ∀ (now1 now2 : String) (pub : PublicationData) (m : Member) (cfg : SyncConfig) (d : String),
      pub.directory_name = some d →
      createLocalPost now1 pub m cfg = createLocalPost now2 pub m cfg := by
  intro now1 now2 pub m cfg d h
  unfold createLocalPost
  rw [h]
  rfl

/-- Witness for `render_deterministic` at a concrete input. -/
theorem render_deterministic_witness :
    createLocalPost "t1" pubPaper memberAlice cfgPapers =
      createLocalPost "t2" pubPaper memberAlice cfgPapers :=
  render_deterministic "t1" "t2" pubPaper memberAlice cfgPapers "2025_paper" rfl

/-- Claim C9 counterexample: for a publication without a directory name (as
`_parse_qmd_content` produces), `_create_local_post` reads the clock
(`datetime.now()`, line 330), so two invocations at different times give
different rendered outputs — rendering is not a function of
(ParsedPublication, Member, sync configuration) alone. -/
theorem render_clock_dependent :
    createLocalPost "20250101000000" pubNoDir memberAlice cfgPapers ≠
      createLocalPost "20250102000000" pubNoDir memberAlice cfgPapers := by
  decide

/-- Claim C10: only members marked active are processed: a missing `active`
flag defaults to true (such members pass the filter exactly when they are in
the list); a member with `active: false` never passes the filter; and when
the single-member filter selects only inactive members, the whole run
returns the state unchanged with no output — nothing is fetched and nothing
is written. -/
theorem active_member_filter :
    (∀ (ms : List Member) (m : Member), m.active = none →
      (m ∈ activeMembers ms ↔ m ∈ ms)) ∧
    (∀ (ms : List Member) (m : Member), m.active = some false →
      m ∉ activeMembers ms) ∧
    (∀ (http : Http) (yload : YamlLoader) (apiParse : ApiParser) (now : String) (dryRun : Bool)
       (cfg : Config) (u : String) (fs : FS),
      (∀ m ∈ cfg.members, m.username = u → m.active = some false) →
      syncMemberPostsAll http yload apiParse now dryRun cfg (some u) fs = (fs, [])) := by
  refine ⟨?_, ?_, ?_⟩
  · intro ms m hm
    constructor
    · intro h
      exact (List.mem_filter.mp h).1
    · intro h
      exact List.mem_filter.mpr ⟨h, by simp [activeMembers, hm]⟩
  · intro ms m hm h
    have h2 := (List.mem_filter.mp h).2
    rw [hm] at h2
    exact Bool.noConfusion h2
  · intro http yload apiParse now dryRun cfg u fs hall
    have hact : activeMembers (selectMembers cfg.members (some u)) = [] := by
      rw [activeMembers, List.filter_eq_nil_iff]
      intro m hm
      have h2 := List.mem_filter.mp hm
      have hu : m.username = u := by
        have := h2.2
        simpa using this
      rw [hall m h2.1 hu]
      simp
    unfold syncMemberPostsAll
    by_cases hc : ((some u : Option String).isSome &&
        (selectMembers cfg.members (some u)).isEmpty) = true
    · rw [if_pos hc]
    · rw [if_neg hc, hact]
      rfl

/-- Witness for `active_member_filter` at concrete inputs: a member whose
flag is missing counts as active, and a run filtered to an inactive member
leaves the state untouched. -/
theorem active_member_filter_witness :
    (memberAlice ∈ activeMembers [memberAlice] ↔ memberAlice ∈ [memberAlice]) ∧
    syncMemberPostsAll (fun _ => none) (fun _ => .error ()) (fun _ => []) "t" false
      { members := [{ memberAlice with username := "bob", active := some false }],
        sync_config := cfgPapers } (some "bob") [] = ([], []) :=
  ⟨active_member_filter.1 [memberAlice] memberAlice rfl,
   active_member_filter.2.2 (fun _ => none) (fun _ => .error ()) (fun _ => []) "t" false
     { members := [{ memberAlice with username := "bob", active := some false }],
       sync_config := cfgPapers } "bob" []
     (by intro m hm hu; simp at hm; rw [hm])⟩

/-- Claim C3: for every publication whose parsed categories form a list (the
shape the data model prescribes for ParsedPublication), rendering builds the
frontmatter successfully, its categories entry is a list that contains the
marker category member-publication at least once, and the marker is never
duplicated: when the input categories already contain the marker (as when
re-rendering previously synced output), the rendered list has exactly as
many marker entries as the input had. -/
theorem marker_category_invariant :
    ∀ (dirName : String) (pub : PublicationData) (m : Member) (l : List Yaml),
      pub.categories = .list l →
      ∃ (fm : List (String × Yaml)) (cats : List Yaml),
        buildFrontmatter dirName pub m = some fm ∧
        lookupFm "categories" fm = some (.list cats) ∧
        markerCategory ∈ cats ∧
        (markerCategory ∈ l → cats.count markerCategory = l.count markerCategory) := by
  intro dirName pub m l hl
  obtain ⟨l2, h1, h2, h3⟩ := buildCategories_marker l pub.original_frontmatter
  rw [← hl] at h1
  have hbf : ∃ fm, buildFrontmatter dirName pub m = some fm := by
    unfold buildFrontmatter
    rw [h1]
    exact ⟨_, rfl⟩
  obtain ⟨fm, hfm⟩ := hbf
  obtain ⟨_, hcats⟩ := buildFrontmatter_fields dirName pub m fm hfm
  exact ⟨fm, l2, hfm, hcats _ h1, h2, h3⟩

/-- Witness for `marker_category_invariant` at a concrete input. -/
theorem marker_category_invariant_witness :
    pubPaper.categories = Yaml.list [.str "paper"] ∧
    ∃ (fm : List (String × Yaml)) (cats : List Yaml),
      buildFrontmatter "2025_paper" pubPaper memberAlice = some fm ∧
      lookupFm "categories" fm = some (.list cats) ∧
      markerCategory ∈ cats ∧
      (markerCategory ∈ [Yaml.str "paper"] →
        cats.count markerCategory = ([Yaml.str "paper"] : List Yaml).count markerCategory) :=
  ⟨rfl, marker_category_invariant "2025_paper" pubPaper memberAlice [.str "paper"] rfl⟩

/-- Claim C7 counterexample: a source document with `author: []` renders
with an empty author list — the rendered author field is a list but not a
non-empty one, refuting the universally claimed non-emptiness. -/
theorem author_empty_list_counterexample :
    (buildFrontmatter "2025_paper" pubEmptyAuthor memberAlice).map (lookupFm "author") =
      some (some (Yaml.list [])) ∧
    normalizeAuthor pubEmptyAuthor.author = [] := by
  decide

/-- Claim C7 (amended): the rendered author field is always a list, never a
bare string: a string author is wrapped in a singleton list, a non-string
non-list author becomes a singleton list of its string form, and the result
is non-empty unless the parsed author value is itself the empty list. -/
theorem author_always_list :
    ∀ (dirName : String) (pub : PublicationData) (m : Member) (fm : List (String × Yaml)),
      buildFrontmatter dirName pub m = some fm →
      lookupFm "author" fm = some (.list (normalizeAuthor pub.author)) ∧
      (∀ s, normalizeAuthor (.str s) = [.str s]) ∧
      (∀ v, (∀ s, v ≠ .str s) → (∀ lv, v ≠ .list lv) →
        normalizeAuthor v = [.str (pyStr v)]) ∧
      (pub.author ≠ .list [] → (normalizeAuthor pub.author).length ≥ 1) := by
  intro dirName pub m fm hfm
  refine ⟨(buildFrontmatter_fields dirName pub m fm hfm).1, fun s => rfl, ?_, ?_⟩
  · intro v hs hl
    cases v with
    | str s => exact absurd rfl (hs s)
    | list lv => exact absurd rfl (hl lv)
    | int n => rfl
    | bool b => rfl
    | null => rfl
    | map mm => rfl
  · intro hne
    cases hv : pub.author with
    | str s => simp [normalizeAuthor]
    | list lv =>
      cases lv with
      | nil => exact absurd hv hne
      | cons x xs => simp [normalizeAuthor]
    | int n => simp [normalizeAuthor]
    | bool b => simp [normalizeAuthor]
    | null => simp [normalizeAuthor]
    | map mm => simp [normalizeAuthor]

/-- Witness for `author_always_list` at a concrete input. -/
theorem author_always_list_witness :
    (buildFrontmatter "2025_paper" pubPaper memberAlice).map (lookupFm "author") =
      some (some (.list (normalizeAuthor pubPaper.author))) := by
  cases h : buildFrontmatter "2025_paper" pubPaper memberAlice with
  | none => exact absurd h (by decide)
  | some fm =>
    simp only [Option.map_some']
    rw [(author_always_list "2025_paper" pubPaper memberAlice fm h).1]

/-- Claim C1 (amended): the local primary file is always placed directly
under the base publications directory, in a subdirectory named
lowercased-username dash remote-directory-name, independent of the
destination resolver: `_get_destination_subdir` implements the claimed
precedence (member override used verbatim with slashes trimmed; else the
first declared category with a category-mapping entry), but it is never
invoked when the local path is built. -/
theorem destination_placement :
    (∀ (now : String) (pub : PublicationData) (m : Member) (cfg : SyncConfig) (d : String)
       (out : RenderedOutput),
      pub.directory_name = some d →
      createLocalPost now pub m cfg = some out →
      out.indexPath = ["publications", pyLower m.username ++ "-" ++ d, "index.qmd"]) ∧
    (∀ (pub : PublicationData) (m : Member) (cfg : SyncConfig) (p : String),
      m.destination_path = some p →
      getDestinationSubdir pub m cfg = some (pyStripSlashes p)) ∧
    (∀ (pub : PublicationData) (m : Member) (cfg : SyncConfig) (c : String) (rest : List Yaml)
       (sub : String),
      m.destination_path = none →
      pub.categories = .list (.str c :: rest) →
      lookupAssoc c cfg.category_mapping = some sub →
      getDestinationSubdir pub m cfg = some (pyStripSlashes sub)) := by
  refine ⟨?_, ?_, ?_⟩
  · intro now pub m cfg d out hd hout
    simp only [createLocalPost, hd, Option.getD_some] at hout
    cases hbf : buildFrontmatter d pub m with
    | none => rw [hbf] at hout; exact Option.noConfusion hout
    | some fm =>
      rw [hbf] at hout
      injection hout with hout
      rw [← hout]
      rfl
  · intro pub m cfg p hp
    unfold getDestinationSubdir
    rw [hp]
  · intro pub m cfg c rest sub hd hc hl
    simp [getDestinationSubdir, hd, hc, yamlIterate, List.findSome?_cons, hl]

/-- Claim C1 counterexample: with no member override, categories [paper] and
the mapping paper to papers, the resolver yields papers, yet the rendered
index path is publications/alice-2025_paper/index.qmd, which has no papers
component at all — the resolver result plays no part in placement. -/
theorem destination_placement_counterexample :
    (createLocalPost "t0" pubPaper memberAlice cfgPapers).map RenderedOutput.indexPath =
      some ["publications", "alice-2025_paper", "index.qmd"] ∧
    getDestinationSubdir pubPaper memberAlice cfgPapers = some "papers" ∧
    "papers" ∉ ["publications", "alice-2025_paper", "index.qmd"] := by
  decide

/-- Witness for `destination_placement` at concrete inputs. -/
theorem destination_placement_witness :
    (createLocalPost "t0" pubPaper memberAlice cfgPapers).map RenderedOutput.indexPath =
      some ["publications", "alice-2025_paper", "index.qmd"] ∧
    getDestinationSubdir pubPaper memberAlice cfgPapers = some (pyStripSlashes "papers") := by
  constructor
  · cases hout : createLocalPost "t0" pubPaper memberAlice cfgPapers with
    | none => exact absurd hout (by decide)
    | some out =>
      simp only [Option.map_some']
      rw [destination_placement.1 "t0" pubPaper memberAlice cfgPapers "2025_paper" out rfl hout]
      rfl
  · exact destination_placement.2.2 pubPaper memberAlice cfgPapers "paper" [] "papers" rfl rfl rfl

/-- Claim C5 (amended): for input text that does not begin with the
delimiter, or begins with it but has no further delimiter occurrence (the
split yields fewer than three parts), the parser never fails: it returns the
fallback publication, whose title derives from the filename (extension
stripped, dashes replaced by spaces, title-cased — Index for the filename
index.qmd used at every call site), whose categories are exactly the single
generic category research, and whose body is the entire input.  With at
least one further delimiter occurrence the metadata branch is taken instead
and can fail; see the counterexample. -/
theorem parser_fallback :
    ∀ (yload : YamlLoader) (content filename : String) (m : Member),
      (pyStartsWith content "---" = false ∨ (pySplit2 "---" content).length < 3) →
      parseQmdContent yload content filename m = some (fallbackPublication content filename m) ∧
      (fallbackPublication content filename m).title =
        .str (pyTitle (pyReplace (pyReplace filename ".qmd" "") "-" " ")) ∧
      (fallbackPublication content filename m).categories = .list [.str "research"] ∧
      (fallbackPublication content filename m).content = content ∧
      (fallbackPublication content "index.qmd" m).title = .str "Index" := by
  intro yload content filename m h
  refine ⟨?_, rfl, rfl, rfl, rfl⟩
  cases h with
  | inl hns => simp [parseQmdContent, hns]
  | inr hlen =>
    cases hs : pyStartsWith content "---" with
    | false => simp [parseQmdContent, hs]
    | true =>
      rcases hsp : pySplit2 "---" content with _ | ⟨a, rest1⟩
      · simp [parseQmdContent, hs, hsp]
      · rcases rest1 with _ | ⟨b, rest2⟩
        · simp [parseQmdContent, hs, hsp]
        · rcases rest2 with _ | ⟨c, rest3⟩
          · simp [parseQmdContent, hs, hsp]
          · rw [hsp] at hlen
            simp at hlen
            omega

/-- Claim C5 counterexample: the input ---a---b begins with the delimiter
and has exactly one further delimiter occurrence (fewer than two), so the
claim predicts the never-fail fallback with the whole text as body; but the
split yields three parts, the parser takes the metadata branch, and since
yaml.safe_load of the block a yields the scalar a rather than a mapping
(modelled by .ok none), the parser returns the failure signal None. -/
theorem parser_fallback_counterexample :
    pyStartsWith "---a---b" "---" = true ∧
    (pySplitOn "---a---b" "---").length = 3 ∧
    parseQmdContent (fun _ => .ok none) "---a---b" "index.qmd" memberAlice = none := by
  decide

/-- Witness for `parser_fallback` at a concrete input. -/
theorem parser_fallback_witness :
    parseQmdContent (fun _ => .error ()) "plain text" "index.qmd" memberAlice =
      some (fallbackPublication "plain text" "index.qmd" memberAlice) :=
  (parser_fallback (fun _ => .error ()) "plain text" "index.qmd" memberAlice
    (Or.inl (by decide))).1

/-- Claim C6: a malformed metadata block never propagates an exception: when
the structured-block load raises, the parser returns the explicit failure
signal None; and in the per-publication sync loop, a document whose
rendering raises is dropped while every other document is processed exactly
as if the bad one were absent — a single malformed document never aborts the
member's batch. -/
theorem parse_failure_isolated :
    (∀ (yload : YamlLoader) (content filename : String) (m : Member) (a b c : String),
      pyStartsWith content "---" = true →
      pySplit2 "---" content = [a, b, c] →
      yload (pyStrip b) = .error () →
      parseQmdContent yload content filename m = none) ∧
    (∀ (http : Http) (now : String) (dryRun : Bool) (m : Member) (scfg : SyncConfig) (fs : FS)
       (xs ys : List PublicationData) (bad : PublicationData),
      createLocalPost now bad m scfg = none →
      syncPublications http now dryRun m scfg fs (xs ++ bad :: ys) =
        syncPublications http now dryRun m scfg fs (xs ++ ys)) := by
  constructor
  · intro yload content filename m a b c hs hsp herr
    simp [parseQmdContent, hs, hsp, herr]
  · intro http now dryRun m scfg fs xs ys bad hbad
    induction xs generalizing fs with
    | nil =>
      simp only [List.nil_append, syncPublications, hbad]
    | cons x xs ih =>
      simp only [List.cons_append, syncPublications]
      cases hx : createLocalPost now x m scfg with
      | none => exact ih fs
      | some out =>
        simp only [hx, List.append_eq]
        rw [ih]

/-- Witness for `parse_failure_isolated` at concrete inputs. -/
theorem parse_failure_isolated_witness :
    parseQmdContent (fun _ => .error ()) "---x---y" "index.qmd" memberAlice = none ∧
    syncPublications (fun _ => none) "t" false memberAlice cfgPapers [] [pubBadCats] =
      syncPublications (fun _ => none) "t" false memberAlice cfgPapers [] [] :=
  ⟨parse_failure_isolated.1 (fun _ => .error ()) "---x---y" "index.qmd" memberAlice "" "x" "y"
     (by decide) (by decide) rfl,
   parse_failure_isolated.2 (fun _ => none) "t" false memberAlice cfgPapers [] [] []
     pubBadCats (by decide)⟩

theorem probeFeatured_eq_find (http : Http) (username repoName pubPath dirName : String) :
    ∀ exts : List String,
      probeFeatured http username repoName pubPath dirName exts =
        match exts.find? (fun e =>
            match http (rawGithubUrl username repoName pubPath dirName ("featured." ++ e)) with
            | some r => r.status == 200
            | none => false) with
        | some e =>
          [⟨"featured." ++ e, rawGithubUrl username repoName pubPath dirName ("featured." ++ e),
            pubPath ++ "/" ++ dirName ++ "/" ++ ("featured." ++ e)⟩]
        | none => [] := by
  intro exts
  induction exts with
  | nil => rfl
  | cons e rest ih =>
    simp only [probeFeatured, List.find?_cons]
    cases hh : http (rawGithubUrl username repoName pubPath dirName ("featured." ++ e)) with
    | none => simp [hh, ih]
    | some r =>
      by_cases hs : r.status = 200
      · simp [hh, hs]
      · have hbs : (r.status == 200) = false := by simp [hs]
        simp [hh, hs, hbs, ih]

/-- The network behaviour of end-to-end scenario 4: the listing endpoint is
denied with 403, the known fallback directory's primary document resolves
with 200, and every other request (image probes included) fails. -/
def httpDenied : Http := fun url =>
  if url = memberApiUrl "Alice" "Alice.github.io" "publications" then
    some ⟨403, "denied"⟩
  else if url = rawGithubUrl "Alice" "Alice.github.io" "publications" "20250917_test"
      "index.qmd" then
    some ⟨200, "Fallback doc body"⟩
  else none

/-- Claim C8: when the primary listing request is denied with status 403 or
fails outright (no response), the fallback direct-fetch strategy runs
against the fixed known directory list; each known directory whose primary
document fetches with status 200 and parses contributes its publication to
the sync set; and exactly one featured image is probed for, by trying the
allowed extensions in their fixed order and keeping the first that resolves
with status 200 (so at most one image is ever attached). -/
theorem fallback_fetch :
    (∀ (http : Http) (yload : YamlLoader) (apiParse : ApiParser) (m : Member) (r : HttpResponse),
      http (memberApiUrl m.username (m.username ++ ".github.io")
        (pyStripSlashes (m.publications_path.getD "/publications"))) = some r →
      r.status = 403 →
      getPostsFromMemberSite http yload apiParse m =
        getPostsViaRawGithub http yload m.username
          (pyStripSlashes (m.publications_path.getD "/publications")) m) ∧
    (∀ (http : Http) (yload : YamlLoader) (apiParse : ApiParser) (m : Member),
      http (memberApiUrl m.username (m.username ++ ".github.io")
        (pyStripSlashes (m.publications_path.getD "/publications"))) = none →
      getPostsFromMemberSite http yload apiParse m =
        getPostsViaRawGithub http yload m.username
          (pyStripSlashes (m.publications_path.getD "/publications")) m) ∧
    (∀ (http : Http) (yload : YamlLoader) (username pubPath : String) (m : Member)
       (dirName : String) (r : HttpResponse) (pd : PublicationData),
      dirName ∈ knownDirectories →
      http (rawGithubUrl username (username ++ ".github.io") pubPath dirName "index.qmd") =
        some r →
      r.status = 200 →
      parseQmdContent yload r.text "index.qmd" m = some pd →
      { pd with
          directory_name := some dirName
          source_url := some ("https://github.com/" ++ username ++ "/" ++
            (username ++ ".github.io") ++ "/blob/main/" ++ pubPath ++ "/" ++ dirName ++
            "/index.qmd")
          github_path := some (pubPath ++ "/" ++ dirName ++ "/index.qmd")
          image_files := probeFeatured http username (username ++ ".github.io") pubPath dirName
            imageExtensions } ∈ getPostsViaRawGithub http yload username pubPath m) ∧
    (∀ (http : Http) (username repoName pubPath dirName : String) (exts : List String),
      probeFeatured http username repoName pubPath dirName exts =
        (match exts.find? (fun e =>
            match http (rawGithubUrl username repoName pubPath dirName ("featured." ++ e)) with
            | some r => r.status == 200
            | none => false) with
         | some e =>
           [⟨"featured." ++ e, rawGithubUrl username repoName pubPath dirName ("featured." ++ e),
             pubPath ++ "/" ++ dirName ++ "/" ++ ("featured." ++ e)⟩]
         | none => []) ∧
      (probeFeatured http username repoName pubPath dirName exts).length ≤ 1) := by
  refine ⟨?_, ?_, ?_, ?_⟩
  · intro http yload apiParse m r h hs
    simp [getPostsFromMemberSite, h, hs]
  · intro http yload apiParse m h
    simp [getPostsFromMemberSite, h]
  · intro http yload username pubPath m dirName r pd hdir hr hs hpd
    have hfetch : fetchKnownDir http yload username (username ++ ".github.io") pubPath m
        dirName = some
        { pd with
            directory_name := some dirName
            source_url := some ("https://github.com/" ++ username ++ "/" ++
              (username ++ ".github.io") ++ "/blob/main/" ++ pubPath ++ "/" ++ dirName ++
              "/index.qmd")
            github_path := some (pubPath ++ "/" ++ dirName ++ "/index.qmd")
            image_files := probeFeatured http username (username ++ ".github.io") pubPath
              dirName imageExtensions } := by
      simp [fetchKnownDir, hr, hs, hpd]
    exact List.mem_filterMap.mpr ⟨dirName, hdir, hfetch⟩
  · intro http username repoName pubPath dirName exts
    refine ⟨probeFeatured_eq_find http username repoName pubPath dirName exts, ?_⟩
    rw [probeFeatured_eq_find]
    cases exts.find? (fun e =>
        match http (rawGithubUrl username repoName pubPath dirName ("featured." ++ e)) with
        | some r => r.status == 200
        | none => false) with
    | none => simp
    | some e => simp

/-- Witness for `fallback_fetch` in the scenario-4 network behaviour: the
denied listing falls back to the raw fetch, and the known directory's
document (which parses as a plain body) lands in the sync set. -/
theorem fallback_fetch_witness :
    getPostsFromMemberSite httpDenied (fun _ => .error ()) (fun _ => []) memberAlice =
      getPostsViaRawGithub httpDenied (fun _ => .error ()) memberAlice.username
        (pyStripSlashes (memberAlice.publications_path.getD "/publications")) memberAlice ∧
    { fallbackPublication "Fallback doc body" "index.qmd" memberAlice with
        directory_name := some "20250917_test"
        source_url := some ("https://github.com/" ++ "Alice" ++ "/" ++
          ("Alice" ++ ".github.io") ++ "/blob/main/" ++ "publications" ++ "/" ++
          "20250917_test" ++ "/index.qmd")
        github_path := some ("publications" ++ "/" ++ "20250917_test" ++ "/index.qmd")
        image_files := probeFeatured httpDenied "Alice" ("Alice" ++ ".github.io")
          "publications" "20250917_test" imageExtensions } ∈
      getPostsViaRawGithub httpDenied (fun _ => .error ()) "Alice" "publications" memberAlice :=
  ⟨fallback_fetch.1 httpDenied (fun _ => .error ()) (fun _ => []) memberAlice
     ⟨403, "denied"⟩ (by decide) rfl,
   fallback_fetch.2.2.1 httpDenied (fun _ => .error ()) "Alice" "publications" memberAlice
     "20250917_test" ⟨200, "Fallback doc body"⟩
     (fallbackPublication "Fallback doc body" "index.qmd" memberAlice)
     (by decide) (by decide) rfl (by decide)⟩
